import Mathlib

/-!
Verification of the bcachefs-tui counter application (src/src/main.rs).

The application state, key handling and event loop are embedded shallowly:
the `u8` counter is a `Nat` with explicit debug-mode overflow checks
(Rust debug builds trap on `u8` over/underflow with a panic, and the
repository's own test suite relies on that behaviour), fallible Rust
functions returning `Result<(), Report>` on a `&mut self` receiver become
functions into `KeyOutcome`, which records the mutated state together with
the success / error / panic outcome.
-/

namespace BcachefsTui

/-- Mirror of `struct App { counter: u8, exit: bool }` (main.rs lines 25-29).
The `u8` is modelled as a `Nat`; every operation below performs the
debug-mode bound checks explicitly, so reachable states keep
`counter ≤ 255`. -/
structure App where
  counter : Nat
  exit : Bool
deriving DecidableEq, Repr

/-- `App::default()`: `counter = 0`, `exit = false`. -/
def App.default : App := ⟨0, false⟩

/-- Outcome of a fallible operation on `&mut App`: `ok` and `err` carry the
state after the in-place mutation (a `bail!` returns the error but keeps
earlier field writes), `panics` models a Rust debug-mode arithmetic trap,
which aborts with no resulting state. -/
inductive KeyOutcome where
  | ok (s : App)
  | err (msg : String) (s : App)
  | panics (msg : String)
deriving DecidableEq, Repr

/-- The state an outcome leaves behind, if the process survived. -/
def outState : KeyOutcome → Option App
  | .ok s => some s
  | .err _ s => some s
  | .panics _ => none

/-- Mirror of `crossterm::event::KeyCode` restricted to what the handler
inspects: `Char(c)` plus a catch-all for every other key identity. -/
inductive KeyCode where
  | char (c : Char)
  | otherKey
deriving DecidableEq, Repr

/-- Mirror of `crossterm::event::KeyEventKind`. -/
inductive KeyEventKind where
  | press
  | release
  | keyRepeat
deriving DecidableEq, Repr

/-- Mirror of `crossterm::event::KeyEvent`, restricted to the fields the
program reads (`code` and `kind`). -/
structure KeyEvent where
  code : KeyCode
  kind : KeyEventKind
deriving DecidableEq, Repr

/-- Mirror of `crossterm::event::Event`: key events, resizes, and a
catch-all for the remaining variants (mouse, focus, paste). -/
inductive Event where
  | key (k : KeyEvent)
  | resize (w h : Nat)
  | otherEvent
deriving DecidableEq, Repr

/-- `App::decrement_counter` (main.rs lines 67-73): the underflow guard is
commented out in the source, so `self.counter -= 1` on a `u8` holding 0
traps in a debug build with "attempt to subtract with overflow". -/
def decrement_counter (s : App) : KeyOutcome :=
  if s.counter = 0 then
    .panics "attempt to subtract with overflow"
  else
    .ok { s with counter := s.counter - 1 }

/-- `App::increment_counter` (main.rs lines 75-81): `self.counter += 1`
(trapping at 255 in a debug build), then `bail!("counter overflow")` if the
new value exceeds 2 — the increment has already been stored when the error
is returned. -/
def increment_counter (s : App) : KeyOutcome :=
  if s.counter + 1 > 255 then
    .panics "attempt to add with overflow"
  else if s.counter + 1 > 2 then
    .err "counter overflow" { s with counter := s.counter + 1 }
  else
    .ok { s with counter := s.counter + 1 }

/-- `App::handle_key_event` (main.rs lines 53-61): dispatch on the key
code; the `?` on decrement/increment propagates their error together with
the already-mutated state. -/
def handle_key_event (s : App) (e : KeyEvent) : KeyOutcome :=
  match e.code with
  | .char c =>
    if c = 'q' then .ok { s with exit := true }
    else if c = 'j' then decrement_counter s
    else if c = 'k' then increment_counter s
    else .ok s
  | .otherKey => .ok s

/-- `wrap_err` / `wrap_err_with` from color_eyre: on an error, prepend the
context message; `ok` and a panic pass through. (The Rust context string
for a key event also embeds the event's Debug dump; only the fixed prefix
is modelled.) -/
def wrapErr (ctx : String) : KeyOutcome → KeyOutcome
  | .err msg s => .err (ctx ++ ": " ++ msg) s
  | o => o

/-- `App::handle_events` (main.rs lines 44-51): a key event whose kind is
`Press` is dispatched to `handle_key_event` with the error context
"handling key event failed"; every other event is `Ok(())` with the state
untouched. -/
def handle_events (s : App) (e : Event) : KeyOutcome :=
  match e with
  | .key k =>
    if k.kind = KeyEventKind.press then
      wrapErr "handling key event failed" (handle_key_event s k)
    else .ok s
  | _ => .ok s

/-- Result of running the event loop on a finite event stream. -/
inductive RunResult where
  | done (s : App)
  | failed (msg : String)
  | blocked (s : App)
  | paniced (msg : String)
deriving DecidableEq, Repr

/-- `App::run` (main.rs lines 32-38) over a finite list of input events:
while `exit` is false, take the next event, run `handle_events` wrapped
with the context "handle events failed", and propagate any error with `?`,
ending the run. `blocked` marks the stream running dry while the loop
still waits for input; drawing is pure and cannot fail in this model. -/
def run (s : App) : List Event → RunResult
  | [] => if s.exit then .done s else .blocked s
  | e :: rest =>
    if s.exit then .done s
    else
      match wrapErr "handle events failed" (handle_events s e) with
      | .ok s2 => run s2 rest
      | .err m _ => .failed m
      | .panics m => .paniced m

/-- The key event for pressing the character `c` on the keyboard. -/
def press (c : Char) : KeyEvent := ⟨.char c, .press⟩

/-- `n` presses of the `k` key applied via `handle_key_event`, carrying the
state across both success and error returns (the error is a return value;
the mutated state persists); `none` if some press trapped. -/
def iterateK : Nat → App → Option App
  | 0, s => some s
  | n + 1, s =>
    match outState (handle_key_event s (press 'k')) with
    | some s2 => iterateK n s2
    | none => none

/-- A run of `handle_key_event` calls in which every call returns success;
`none` as soon as a call returns an error or traps. -/
def okSteps : App → List KeyEvent → Option App
  | s, [] => some s
  | s, e :: rest =>
    match handle_key_event s e with
    | .ok s2 => okSteps s2 rest
    | _ => none

/-- Whether an event is a key-press of one of the three bound keys
`j`, `k`, `q` — exactly the events on which `handle_events` acts. -/
def isCounterKeyPress (e : Event) : Bool :=
  match e with
  | .key ⟨.char c, .press⟩ => c == 'j' || c == 'k' || c == 'q'
  | _ => false

/-! ## Rendering

The repository's `impl Widget for &App` (main.rs lines 84-115) builds a
`Block` with all borders in the THICK set, a bold centered top title
" Bcachefs TUI ", a centered bottom title with the three key hints in
blue+bold, and a centered one-line `Paragraph` "Value: " ++ counter with
the numeral in yellow. The grid production itself (border drawing, title
and paragraph centering) lives in the external ratatui crate; it is
modelled here from the spec's exact 50×4 golden grid and checked against
the expected buffer that the repository's own `tests::render` constructs. -/

/-- Foreground colour of a cell: only the colours the program uses. -/
inductive Color where
  | defaultColor
  | blue
  | yellow
deriving DecidableEq, Repr

/-- A cell style: bold modifier plus foreground colour. -/
structure Style where
  bold : Bool
  fg : Color
deriving DecidableEq, Repr

/-- The style of unadorned text and of the border. -/
def defStyle : Style := ⟨false, .defaultColor⟩

/-- `.bold()` — style of the top title. -/
def titleStyle : Style := ⟨true, .defaultColor⟩

/-- `.yellow()` — style of the counter numeral. -/
def counterStyle : Style := ⟨false, .yellow⟩

/-- `.blue().bold()` — style of the key tokens. -/
def keyStyle : Style := ⟨true, .blue⟩

/-- A screen cell: one character with its style. -/
structure Cell where
  ch : Char
  style : Style
deriving DecidableEq, Repr

/-- A buffer is a grid of cells, row-major. -/
def Grid := List (List Cell)

instance : DecidableEq Grid :=
  inferInstanceAs (DecidableEq (List (List Cell)))

/-- A styled span, as built by ratatui's `"text".style()` combinators. -/
structure Span where
  text : String
  style : Style
deriving DecidableEq, Repr

/-- Flatten a list of spans into a list of cells. -/
def spansToCells (spans : List Span) : List Cell :=
  spans.flatMap (fun sp => sp.text.toList.map (fun c => ⟨c, sp.style⟩))

/-- Modelled from the spec: ratatui's centered placement of a line inside a
row of `width` fill cells — `(width - len) / 2` cells of fill on the left,
the remainder on the right (the spec's golden grid fixes this floor
division: 5 border cells left and 6 right of the 37-cell bottom title). -/
def centerPad (width : Nat) (fill : Cell) (content : List Cell) : List Cell :=
  let pad := (width - content.length) / 2
  List.replicate pad fill ++ content ++ List.replicate (width - pad - content.length) fill

/-- The top title `Title::from(" Bcachefs TUI ".bold())`. -/
def titleCells : List Cell :=
  spansToCells [⟨" Bcachefs TUI ", titleStyle⟩]

/-- The bottom instruction line (main.rs lines 87-94). -/
def instructionCells : List Cell :=
  spansToCells
    [⟨" Decrement ", defStyle⟩, ⟨"<j>", keyStyle⟩,
     ⟨" Increment ", defStyle⟩, ⟨"<k>", keyStyle⟩,
     ⟨" Quit ", defStyle⟩, ⟨"<q>", keyStyle⟩]

/-- The body line "Value: " ++ counter, numeral in yellow
(main.rs lines 105-108). -/
def counterCells (app : App) : List Cell :=
  spansToCells [⟨"Value: ", defStyle⟩, ⟨toString app.counter, counterStyle⟩]

/-- Modelled from the spec: rendering the widget of `impl Widget for &App`
into an area of `w` columns and `h` rows with ratatui's Block/Paragraph
semantics — THICK corners and edges, both titles centered and overlaid on
the horizontal border rows, the one-line paragraph centered on the first
interior row, remaining interior rows blank. -/
def render (app : App) (w h : Nat) : Grid :=
  let inner := w - 2
  let hbar : Cell := ⟨'━', defStyle⟩
  let vbar : Cell := ⟨'┃', defStyle⟩
  let space : Cell := ⟨' ', defStyle⟩
  let top := ⟨'┏', defStyle⟩ :: centerPad inner hbar titleCells ++ [⟨'┓', defStyle⟩]
  let bottom := ⟨'┗', defStyle⟩ :: centerPad inner hbar instructionCells ++ [⟨'┛', defStyle⟩]
  let bodyRow := vbar :: centerPad inner space (counterCells app) ++ [vbar]
  let blankRow := vbar :: List.replicate inner space ++ [vbar]
  top :: (bodyRow :: List.replicate (h - 3) blankRow) ++ [bottom]

/-- `App::render_frame` (main.rs lines 40-42): the draw step takes the
state by shared reference — it produces the buffer and hands the state
back unchanged. -/
def render_frame (app : App) (w h : Nat) : Grid × App :=
  (render app w h, app)

/-- `Buffer::with_lines`: each string becomes a row of default-styled
cells. -/
def withLines (lines : List String) : Grid :=
  lines.map (fun l => l.toList.map (fun c => ⟨c, defStyle⟩))

/-- `Buffer::set_style` on a `Rect { x, y, width, height }`: restyle the
cells whose row index lies in `[y, y+rh)` and column index in
`[x, x+rw)`. -/
def setStyleRect (g : Grid) (x y rw rh : Nat) (st : Style) : Grid :=
  g.mapIdx (fun r row =>
    if y ≤ r ∧ r < y + rh then
      row.mapIdx (fun c cell =>
        if x ≤ c ∧ c < x + rw then ⟨cell.ch, st⟩ else cell)
    else row)

/-- The expected buffer of `tests::render` (main.rs lines 128-143): the
four golden lines with the title, numeral and key-token regions
restyled. -/
def expectedBuffer : Grid :=
  setStyleRect
    (setStyleRect
      (setStyleRect
        (setStyleRect
          (setStyleRect
            (withLines
              ["┏━━━━━━━━━━━━━━━━━ Bcachefs TUI ━━━━━━━━━━━━━━━━━┓",
               "┃                    Value: 0                    ┃",
               "┃                                                ┃",
               "┗━━━━━ Decrement <j> Increment <k> Quit <q>━━━━━━┛"])
            18 0 14 1 titleStyle)
          28 1 1 1 counterStyle)
        17 3 3 1 keyStyle)
      31 3 3 1 keyStyle)
    40 3 3 1 keyStyle

/-! ## Helper lemmas -/

/-- `wrapErr` does not change the state an outcome leaves behind. -/
theorem outState_wrapErr (ctx : String) (o : KeyOutcome) :
    outState (wrapErr ctx o) = outState o := by
  cases o <;> rfl

/-- An increment that does not trap stores the incremented counter in the
resulting state, whether or not the overflow error is returned. -/
theorem increment_counter_outState (s : App) (h : s.counter + 1 ≤ 255) :
    outState (increment_counter s) = some ⟨s.counter + 1, s.exit⟩ := by
  unfold increment_counter
  rw [if_neg (by omega)]
  by_cases h2 : s.counter + 1 > 2
  · rw [if_pos h2]; rfl
  · rw [if_neg h2]; rfl

/-- Pressing `k` from any state whose counter can be incremented without a
`u8` trap survives and stores the incremented counter, whether or not the
overflow error is returned. -/
theorem handle_key_event_k_outState (c : Nat) (ex : Bool) (h : c + 1 ≤ 255) :
    outState (handle_key_event ⟨c, ex⟩ (press 'k')) = some ⟨c + 1, ex⟩ := by
  show outState (increment_counter ⟨c, ex⟩) = some ⟨c + 1, ex⟩
  exact increment_counter_outState ⟨c, ex⟩ h

/-- `n` presses of `k` add `n` to the counter, as long as the `u8` never
traps. -/
theorem iterateK_adds : ∀ (n c : Nat) (ex : Bool), c + n ≤ 255 →
    iterateK n ⟨c, ex⟩ = some ⟨c + n, ex⟩ := by
  intro n
  induction n with
  | zero => intro c ex _; rfl
  | succ n ih =>
    intro c ex h
    have hstep := handle_key_event_k_outState c ex (by omega)
    simp only [iterateK, hstep]
    have hn : c + (n + 1) = (c + 1) + n := by omega
    rw [hn]
    exact ih (c + 1) ex (by omega)

/-- A surviving `handle_key_event` call either sets the exit flag or leaves
it as it was. -/
theorem handle_key_event_exit_eq (s : App) (e : KeyEvent) (s' : App)
    (hout : outState (handle_key_event s e) = some s') :
    s'.exit = true ∨ s'.exit = s.exit := by
  rcases e with ⟨code, kind⟩
  rcases code with c | _
  · simp only [handle_key_event] at hout
    split_ifs at hout with hq hj hk
    · simp only [outState, Option.some.injEq] at hout
      subst hout; left; rfl
    · simp only [decrement_counter] at hout
      split_ifs at hout with h0
      · simp [outState] at hout
      · simp only [outState, Option.some.injEq] at hout
        subst hout; right; rfl
    · simp only [increment_counter] at hout
      split_ifs at hout with hov h2
      · simp [outState] at hout
      · simp only [outState, Option.some.injEq] at hout
        subst hout; right; rfl
      · simp only [outState, Option.some.injEq] at hout
        subst hout; right; rfl
    · simp only [outState, Option.some.injEq] at hout
      subst hout; right; rfl
  · simp only [handle_key_event, outState, Option.some.injEq] at hout
    subst hout; right; rfl

/-- A surviving `handle_events` call either sets the exit flag or leaves it
as it was. -/
theorem handle_events_exit_eq (s : App) (e : Event) (s' : App)
    (hout : outState (handle_events s e) = some s') :
    s'.exit = true ∨ s'.exit = s.exit := by
  rcases e with k | ⟨a, b⟩ | _
  · simp only [handle_events] at hout
    split_ifs at hout with hp
    · rw [outState_wrapErr] at hout
      exact handle_key_event_exit_eq s k s' hout
    · simp only [outState, Option.some.injEq] at hout
      subst hout; right; rfl
  · simp only [handle_events, outState, Option.some.injEq] at hout
    subst hout; right; rfl
  · simp only [handle_events, outState, Option.some.injEq] at hout
    subst hout; right; rfl

/-- A successful `handle_key_event` call keeps the counter at 2 or
below. -/
theorem handle_key_event_ok_bound (s : App) (e : KeyEvent) (s' : App)
    (hb : s.counter ≤ 2) (hok : handle_key_event s e = .ok s') :
    s'.counter ≤ 2 := by
  rcases e with ⟨code, kind⟩
  rcases code with c | _
  · simp only [handle_key_event] at hok
    split_ifs at hok with hq hj hk
    · simp only [KeyOutcome.ok.injEq] at hok
      subst hok; exact hb
    · simp only [decrement_counter] at hok
      split_ifs at hok with h0
      simp only [KeyOutcome.ok.injEq] at hok
      subst hok
      show s.counter - 1 ≤ 2
      omega
    · simp only [increment_counter] at hok
      split_ifs at hok with hov h2
      simp only [KeyOutcome.ok.injEq] at hok
      subst hok
      show s.counter + 1 ≤ 2
      omega
    · simp only [KeyOutcome.ok.injEq] at hok
      subst hok; exact hb
  · simp only [handle_key_event, KeyOutcome.ok.injEq] at hok
    subst hok; exact hb

/-- Along an all-success trace the counter bound 2 is invariant. -/
theorem okSteps_counter_le (evs : List KeyEvent) : ∀ (s s' : App),
    s.counter ≤ 2 → okSteps s evs = some s' → s'.counter ≤ 2 := by
  induction evs with
  | nil =>
    intro s s' hb h
    simp only [okSteps, Option.some.injEq] at h
    subst h; exact hb
  | cons e rest ih =>
    intro s s' hb h
    simp only [okSteps] at h
    cases hk : handle_key_event s e with
    | ok s2 =>
      rw [hk] at h
      exact ih s2 s' (handle_key_event_ok_bound s e s2 hb hk) h
    | err m s2 => rw [hk] at h; simp at h
    | panics m => rw [hk] at h; simp at h

/-- From a state with counter at most 2, the only surviving call whose
resulting counter exceeds 2 is the `k` press that returns the
"counter overflow" error. -/
theorem handle_key_event_exceed (s : App) (e : KeyEvent) (s' : App)
    (hb : s.counter ≤ 2) (hout : outState (handle_key_event s e) = some s')
    (hgt : 2 < s'.counter) :
    handle_key_event s e = .err "counter overflow" s' := by
  rcases e with ⟨code, kind⟩
  rcases code with c | _
  · simp only [handle_key_event] at hout ⊢
    split_ifs at hout ⊢ with hq hj hk
    · simp only [outState, Option.some.injEq] at hout
      subst hout; simp at hgt; omega
    · simp only [decrement_counter] at hout ⊢
      split_ifs at hout ⊢ with h0
      · simp [outState] at hout
      · simp only [outState, Option.some.injEq] at hout
        subst hout; simp at hgt; omega
    · simp only [increment_counter] at hout ⊢
      split_ifs at hout ⊢ with hov h2
      · omega
      · simp only [outState, Option.some.injEq] at hout
        subst hout; rfl
      · simp only [outState, Option.some.injEq] at hout
        subst hout; simp at hgt; omega
    · simp only [outState, Option.some.injEq] at hout
      subst hout; omega
  · simp only [handle_key_event, outState, Option.some.injEq] at hout
    subst hout; omega

/-! ## Claims -/

/-- Claim C1 fails on the code: after 3 presses of `k` from the default
state the counter is 3 — `increment_counter` stores the increment before
bailing — not `min 3 2 = 2`, and the state 3 is precisely the one the
claim rules out ("never at 3"). -/
theorem C1_counterexample :
    iterateK 3 App.default = some ⟨3, false⟩ ∧
    min 3 2 = 2 ∧
    iterateK 3 App.default ≠ some ⟨min 3 2, false⟩ := by
  decide

/-- Claim C1 (amended): for every sequence of `n ≤ 255` presses of `k`
from the default state the counter afterwards equals `n` — the first two
presses succeed and each later press fails with the overflow error but
still stores the increment; in particular the press that would take the
counter to 3 returns the `counter overflow` error and leaves the counter
at 3. -/
theorem C1_presses_amended (n : Nat) (h : n ≤ 255) :
    iterateK n App.default = some ⟨n, false⟩ ∧
    handle_key_event ⟨2, false⟩ (press 'k') = .err "counter overflow" ⟨3, false⟩ := by
  constructor
  · have := iterateK_adds n 0 false (by omega)
    simpa using this
  · rfl

/-- Witness for C1 at `n = 3`. -/
theorem C1_presses_amended_witness :
    iterateK 3 App.default = some ⟨3, false⟩ ∧
    handle_key_event ⟨2, false⟩ (press 'k') = .err "counter overflow" ⟨3, false⟩ :=
  C1_presses_amended 3 (by decide)

/-- Claim C2 names the intended behaviour; the code diverges: pressing `j`
at counter 0 does not return a recoverable `CounterUnderflow` error — the
guard in `decrement_counter` is commented out, so the `u8` subtraction
traps with the debug-mode panic "attempt to subtract with overflow",
aborting the process (the repository's own `handle_key_event_panic` test
asserts exactly this panic). -/
theorem C2_underflow_panics :
    handle_key_event App.default (press 'j') =
      .panics "attempt to subtract with overflow" := by
  rfl

/-- Claim C3 names the intended behaviour; the code diverges: the
`counter overflow` error is propagated by `?` out of `handle_key_event`,
wrapped by `handle_events` and again by `run`, which returns it — the loop
terminates with a failure instead of continuing. -/
theorem C3_error_escapes_run :
    run ⟨2, false⟩ [Event.key (press 'k')] =
      .failed "handle events failed: handling key event failed: counter overflow" := by
  rfl

/-- Claim C4: an increment that does not trap and whose resulting value
exceeds 2 returns the recoverable error with message exactly
"counter overflow"; an increment whose resulting value is at most 2
returns success. -/
theorem C4_overflow_message (s : App) (h : s.counter + 1 ≤ 255) :
    (s.counter + 1 > 2 →
      increment_counter s = .err "counter overflow" ⟨s.counter + 1, s.exit⟩) ∧
    (s.counter + 1 ≤ 2 →
      increment_counter s = .ok ⟨s.counter + 1, s.exit⟩) := by
  constructor
  · intro h2
    unfold increment_counter
    rw [if_neg (by omega), if_pos h2]
  · intro h2
    unfold increment_counter
    rw [if_neg (by omega), if_neg (by omega)]

/-- Witness for C4: at counter 2 the increment errs with the exact
message; at counter 1 it succeeds. -/
theorem C4_overflow_message_witness :
    increment_counter ⟨2, false⟩ = .err "counter overflow" ⟨3, false⟩ ∧
    increment_counter ⟨1, false⟩ = .ok ⟨2, false⟩ :=
  ⟨(C4_overflow_message ⟨2, false⟩ (by decide)).1 (by decide),
   (C4_overflow_message ⟨1, false⟩ (by decide)).2 (by decide)⟩

/-- Claim C5: pressing `q` from any state sets the exit flag, leaves the
counter unchanged and returns success; and the exit flag is monotonic —
no surviving `handle_key_event` or `handle_events` call ever resets it
from true to false. -/
theorem C5_quit_exit_monotonic :
    (∀ s : App, handle_key_event s (press 'q') = .ok ⟨s.counter, true⟩) ∧
    (∀ (s : App) (e : KeyEvent) (s' : App), s.exit = true →
      outState (handle_key_event s e) = some s' → s'.exit = true) ∧
    (∀ (s : App) (e : Event) (s' : App), s.exit = true →
      outState (handle_events s e) = some s' → s'.exit = true) := by
  refine ⟨fun s => rfl, fun s e s' hexit hout => ?_, fun s e s' hexit hout => ?_⟩
  · rcases handle_key_event_exit_eq s e s' hout with h | h
    · exact h
    · rw [h, hexit]
  · rcases handle_events_exit_eq s e s' hout with h | h
    · exact h
    · rw [h, hexit]

/-- Witness for C5 at concrete states. -/
theorem C5_quit_exit_monotonic_witness :
    handle_key_event ⟨1, false⟩ (press 'q') = .ok ⟨1, true⟩ ∧
    (⟨2, true⟩ : App).exit = true ∧
    (⟨0, true⟩ : App).exit = true :=
  ⟨C5_quit_exit_monotonic.1 ⟨1, false⟩,
   C5_quit_exit_monotonic.2.1 ⟨1, true⟩ (press 'k') ⟨2, true⟩ rfl (by decide),
   C5_quit_exit_monotonic.2.2 ⟨0, true⟩ Event.otherEvent ⟨0, true⟩ rfl (by decide)⟩

/-- Claim C6: from any state with a positive counter, pressing `j`
decrements the counter by exactly 1, returns success and leaves the exit
flag unchanged. -/
theorem C6_decrement (s : App) (h : s.counter > 0) :
    handle_key_event s (press 'j') = .ok ⟨s.counter - 1, s.exit⟩ := by
  show decrement_counter s = .ok ⟨s.counter - 1, s.exit⟩
  unfold decrement_counter
  rw [if_neg (by omega)]

/-- Witness for C6 at counter 2. -/
theorem C6_decrement_witness :
    handle_key_event ⟨2, false⟩ (press 'j') = .ok ⟨1, false⟩ :=
  C6_decrement ⟨2, false⟩ (by decide)

/-- Claim C7: any event that is not a key-press of `j`, `k` or `q` — any
other key, a key release or repeat, a resize, or any other event kind —
leaves the state unchanged and `handle_events` returns success. -/
theorem C7_other_events_noop (s : App) (e : Event)
    (h : isCounterKeyPress e = false) :
    handle_events s e = .ok s := by
  rcases e with ⟨code, kind⟩ | ⟨a, b⟩ | _
  · rcases kind with _ | _ | _
    · rcases code with c | _
      · simp only [isCounterKeyPress, Bool.or_eq_false_iff,
          beq_eq_false_iff_ne, ne_eq] at h
        obtain ⟨⟨hj, hk⟩, hq⟩ := h
        have hkey : handle_key_event s ⟨.char c, .press⟩ = .ok s := by
          simp only [handle_key_event]
          rw [if_neg hq, if_neg hj, if_neg hk]
        show wrapErr "handling key event failed" (handle_key_event s ⟨.char c, .press⟩) = .ok s
        rw [hkey]
        rfl
      · rfl
    · rfl
    · rfl
  · rfl
  · rfl

/-- Witness for C7 at a resize event. -/
theorem C7_other_events_noop_witness :
    handle_events ⟨1, false⟩ (Event.resize 80 24) = .ok ⟨1, false⟩ :=
  C7_other_events_noop ⟨1, false⟩ (Event.resize 80 24) (by decide)

/-- Claim C8: rendering the state `{counter = 0, exit = false}` into an
area of width 50 and height 4 produces exactly the four-line golden grid
the repository's render test asserts, and the title style, numeral style
and key-token style are each distinct from the surrounding default
style. -/
theorem C8_golden_render :
    render App.default 50 4 = expectedBuffer ∧
    titleStyle ≠ defStyle ∧ counterStyle ≠ defStyle ∧ keyStyle ≠ defStyle := by
  exact ⟨by decide, by decide, by decide, by decide⟩

/-- Claim C9: the draw step is deterministic and side-effect free — it
hands the state back unmodified, and rendering the state it hands back
produces a buffer identical to the one just produced. -/
theorem C9_render_pure (s : App) (w h : Nat) :
    (render_frame s w h).2 = s ∧
    (render_frame s w h).1 = (render_frame ((render_frame s w h).2) w h).1 :=
  ⟨rfl, rfl⟩

/-- Claim C10: along every all-success trace of `handle_key_event` calls
from the default state the counter stays at most 2, and from any such
reachable state the only surviving call whose resulting counter exceeds 2
is the one returning the `counter overflow` error. -/
theorem C10_counter_invariant (evs : List KeyEvent) (s' : App)
    (h : okSteps App.default evs = some s') :
    s'.counter ≤ 2 ∧
    ∀ (e : KeyEvent) (s'' : App), outState (handle_key_event s' e) = some s'' →
      2 < s''.counter → handle_key_event s' e = .err "counter overflow" s'' := by
  have hb : s'.counter ≤ 2 := okSteps_counter_le evs App.default s' (by decide) h
  exact ⟨hb, fun e s'' hout hgt => handle_key_event_exceed s' e s'' hb hout hgt⟩

/-- Witness for C10: the trace `k, k` succeeds and reaches counter 2; the
third press survives with counter 3 and is exactly the overflow error. -/
theorem C10_counter_invariant_witness :
    (⟨2, false⟩ : App).counter ≤ 2 ∧
    handle_key_event ⟨2, false⟩ (press 'k') = .err "counter overflow" ⟨3, false⟩ := by
  have h := C10_counter_invariant [press 'k', press 'k'] ⟨2, false⟩ (by decide)
  exact ⟨h.1, h.2 (press 'k') ⟨3, false⟩ (by decide) (by decide)⟩

end BcachefsTui
